import Mathlib

/-!
Verification development for the vocode-core streaming provider layer:
shallow embeddings of the Sarvam/Cartesia synthesizers, the Sarvam
transcriber, and the transcriber factory with its health-checked fallback,
together with theorems settling the specification claims about them.

Bytes are modelled as natural numbers (values 0..255), byte strings as
lists of naturals, and provider timestamps / elapsed times as rationals.
-/

namespace Vocode

/-- Audio encodings used by the configs (vocode.streaming.models.audio). -/
inductive AudioEncoding
  | linear16
  | mulaw
deriving DecidableEq, Repr

/-- A frame yielded by a synthesizer generator
(SynthesisResult.ChunkResult in base_synthesizer). -/
structure ChunkResult where
  chunk : List Nat
  is_last_chunk : Bool
deriving DecidableEq, Repr

instance : Inhabited ChunkResult := ⟨⟨[], false⟩⟩

/-- The wire-format encoding string Cartesia is asked for
(cartesia_synthesizer.py, output_format construction): MULAW becomes
pcm_mulaw at 8 kHz, LINEAR16 becomes pcm_s16le. -/
def outputEncoding : AudioEncoding → String
  | .mulaw => "pcm_mulaw"
  | .linear16 => "pcm_s16le"

/-- Fuel-indexed form of the while-loop of cartesia_synthesizer.chunk_generator
(`while len(buffer) >= chunk_size: yield buffer[:chunk_size]; buffer = buffer[chunk_size:]`):
emit full frames from the front of the buffer, return the emitted frames
and the leftover buffer.  The guard requires `0 < cs` because the Python
loop does not terminate on a zero chunk size. -/
def drainBufferAux (cs : Nat) : Nat → List Nat → List (List Nat) × List Nat
  | 0, b => ([], b)
  | fuel + 1, b =>
    if 0 < cs ∧ cs ≤ b.length then
      let r := drainBufferAux cs fuel (b.drop cs)
      (b.take cs :: r.1, r.2)
    else ([], b)

/-- The while-loop itself; `b.length` steps of fuel always suffice since
each iteration removes `cs ≥ 1` bytes. -/
def drainBuffer (cs : Nat) (b : List Nat) : List (List Nat) × List Nat :=
  drainBufferAux cs b.length b

/-- Events arriving over Cartesia's context-streaming receive loop
(cartesia_synthesizer.chunk_generator): audio chunks, word-timestamp
batches, provider error events, the done event, and an exception raised
by the transport itself (caught by the `except` clause). -/
inductive CartesiaEvent
  | chunk (audio : List Nat)
  | timestamps (wt : Option (List String × List ℚ × List ℚ))
  | error (msg : String)
  | done
  | raiseExc (msg : String)
deriving Repr

/-- Loop state of chunk_generator: frames yielded so far, the byte
buffer, and the accumulated word timestamps (self.ctx_timestamps). -/
structure GenState where
  frames : List ChunkResult
  buffer : List Nat
  tstamps : List (String × ℚ × ℚ)
deriving Repr

/-- The `async for event in context.receive()` loop of
cartesia_synthesizer.chunk_generator.  A chunk event with nonempty audio
extends the buffer and drains full frames; a timestamps event with a
present word_timestamps payload appends the zipped triples; an error
event is only logged; done breaks the loop; an exception aborts it
(the surrounding try/except absorbs it), keeping frames and buffer. -/
def processEvents (cs : Nat) : GenState → List CartesiaEvent → GenState
  | st, [] => st
  | st, .chunk a :: rest =>
    if a = [] then processEvents cs st rest
    else
      let r := drainBuffer cs (st.buffer ++ a)
      processEvents cs
        { st with
          frames := st.frames ++ r.1.map (fun c => ⟨c, false⟩),
          buffer := r.2 } rest
  | st, .timestamps wt :: rest =>
    match wt with
    | none => processEvents cs st rest
    | some (ws, ss, es) =>
      if ws = [] then processEvents cs st rest
      else processEvents cs { st with tstamps := st.tstamps ++ ws.zip (ss.zip es) } rest
  | st, .error _ :: rest => processEvents cs st rest
  | st, .done :: _ => st
  | st, .raiseExc _ :: _ => st

/-- The flush after the receive loop of cartesia_synthesizer.chunk_generator:
a nonempty leftover buffer shorter than the chunk size is padded to the
chunk size with the encoding silence value (0xFF for pcm_mulaw, 0x00 for
pcm_s16le) and yielded as the last frame; an empty buffer yields an empty
last frame. -/
def cartesiaFlush (enc : AudioEncoding) (cs : Nat) (buffer : List Nat) : ChunkResult :=
  if buffer ≠ [] then
    if buffer.length < cs then
      if outputEncoding enc = "pcm_mulaw" then
        ⟨buffer ++ List.replicate (cs - buffer.length) 255, true⟩
      else if outputEncoding enc = "pcm_s16le" then
        ⟨buffer ++ List.replicate (cs - buffer.length) 0, true⟩
      else ⟨buffer, true⟩
    else ⟨buffer, true⟩
  else ⟨[], true⟩

/-- The silence value of an encoding (0x00 for linear PCM, 0xFF for mu-law). -/
def silenceByte : AudioEncoding → Nat
  | .mulaw => 255
  | .linear16 => 0

/-- cartesia_synthesizer.chunk_generator as a whole: if the context is
already completed it yields nothing; otherwise it runs the receive loop
and then always yields a final frame with is_last_chunk set. -/
def cartesiaChunkGenerator (enc : AudioEncoding) (cs : Nat) (ctxDone : Bool)
    (events : List CartesiaEvent) : List ChunkResult :=
  if ctxDone then []
  else
    let st := processEvents cs ⟨[], [], []⟩ events
    st.frames ++ [cartesiaFlush enc cs st.buffer]

/-- The audio bytes the receive loop actually consumes from an event
trace: chunk payloads up to (excluding) the first done or exception. -/
def processedAudio : List CartesiaEvent → List Nat
  | [] => []
  | .chunk a :: rest => a ++ processedAudio rest
  | .done :: _ => []
  | .raiseExc _ :: _ => []
  | .timestamps _ :: rest => processedAudio rest
  | .error _ :: rest => processedAudio rest

example :
    cartesiaChunkGenerator .linear16 4 false [.chunk [1, 2, 3, 4, 5, 6]] =
      [⟨[1, 2, 3, 4], false⟩, ⟨[5, 6, 0, 0], true⟩] := by decide

example :
    cartesiaChunkGenerator .mulaw 2 false [.chunk [7], .raiseExc "boom"] =
      [⟨[7, 255], true⟩] := by decide

example :
    cartesiaChunkGenerator .mulaw 2 false [.chunk [1, 2]] =
      [⟨[1, 2], false⟩, ⟨[], true⟩] := by decide

/-- Python str.strip over a character list: drop whitespace from both ends. -/
def pyStrip (cs : List Char) : List Char :=
  ((cs.dropWhile Char.isWhitespace).reverse.dropWhile Char.isWhitespace).reverse

/-- The silence-token fast path of sarvam_synthesizer.chunk_generator:
`clean_text = message.text.strip().lower()` is empty or one of the two
sentinel spellings. -/
def isSilenceToken (text : String) : Bool :=
  let clean := (pyStrip text.data).map Char.toLower
  clean = [] || clean = "<silence>".data || clean = "[silence]".data

/-- Outcome of the Sarvam TTS HTTP exchange as observed by
sarvam_synthesizer.chunk_generator: a raised exception (network error,
decode error, ...), a non-ok HTTP status, an empty audios array, or the
decoded/transcoded audio bytes. -/
inductive SarvamHttpResult
  | exc (msg : String)
  | httpError (status : Nat) (body : String)
  | noAudio
  | ok (audioBytes : List Nat)
deriving Repr

/-- Fuel-indexed form of the slicing loop of
sarvam_synthesizer.chunk_generator
(`for i in range(0, len(audio_bytes), stream_chunk_size)`), rewritten on
the remaining suffix: each step yields the next `scs` bytes, marking the
frame last exactly when no more than `scs` bytes remain
(`is_last_chunk=(i + stream_chunk_size >= len(audio_bytes))`). -/
def sarvamSliceAux (scs : Nat) : Nat → List Nat → List ChunkResult
  | 0, _ => []
  | fuel + 1, b =>
    if 0 < scs ∧ 0 < b.length then
      ⟨b.take scs, decide (b.length ≤ scs)⟩ :: sarvamSliceAux scs fuel (b.drop scs)
    else []

/-- The slicing loop itself; `b.length` steps of fuel always suffice. -/
def sarvamSliceLoop (scs : Nat) (b : List Nat) : List ChunkResult :=
  sarvamSliceAux scs b.length b

/-- sarvam_synthesizer.chunk_generator as a function of the message text,
the requested chunk size and the HTTP outcome: silence tokens yield
nothing before any request; errors of any kind yield nothing (the
try/except absorbs exceptions); otherwise the audio bytes are streamed in
slices of `min chunk_size 4096` bytes
(`stream_chunk_size = min(chunk_size, 4096)`). -/
def sarvamChunkGenerator (text : String) (chunkSize : Nat)
    (resp : SarvamHttpResult) : List ChunkResult :=
  if isSilenceToken text then []
  else
    match resp with
    | .exc _ => []
    | .httpError _ _ => []
    | .noAudio => []
    | .ok bytes => sarvamSliceLoop (min chunkSize 4096) bytes

/-- The HTTP requests sarvam_synthesizer.chunk_generator issues for a
message text: none for a silence token, otherwise one POST carrying the
text. -/
def sarvamRequests (text : String) : List String :=
  if isSilenceToken text then [] else [text]

example :
    sarvamChunkGenerator "hello" 4 (.ok [1, 2, 3, 4, 5]) =
      [⟨[1, 2, 3, 4], false⟩, ⟨[5], true⟩] := by decide

example : sarvamChunkGenerator " <SILENCE> " 4 (.ok [1, 2, 3]) = [] := by decide

example : sarvamRequests "[silence]" = [] := by decide

example : sarvamChunkGenerator "hi" 4 (.exc "boom") = [] := by decide

lemma drainBufferAux_join (cs : Nat) :
    ∀ (fuel : Nat) (b : List Nat),
      (drainBufferAux cs fuel b).1.flatten ++ (drainBufferAux cs fuel b).2 = b := by
  intro fuel
  induction fuel with
  | zero => intro b; simp [drainBufferAux]
  | succ n ih =>
    intro b
    by_cases h : 0 < cs ∧ cs ≤ b.length
    · simp only [drainBufferAux, if_pos h, List.flatten_cons]
      rw [List.append_assoc, ih]
      exact List.take_append_drop cs b
    · simp [drainBufferAux, if_neg h]

lemma drainBufferAux_mem (cs : Nat) :
    ∀ (fuel : Nat) (b : List Nat) (f : List Nat),
      f ∈ (drainBufferAux cs fuel b).1 → f.length = cs := by
  intro fuel
  induction fuel with
  | zero => intro b f hf; simp [drainBufferAux] at hf
  | succ n ih =>
    intro b f hf
    by_cases h : 0 < cs ∧ cs ≤ b.length
    · simp only [drainBufferAux, if_pos h, List.mem_cons] at hf
      rcases hf with rfl | hf
      · simp [List.length_take, Nat.min_eq_left h.2]
      · exact ih (b.drop cs) f hf
    · simp [drainBufferAux, if_neg h] at hf

lemma drainBufferAux_rest (cs : Nat) (hcs : 0 < cs) :
    ∀ (fuel : Nat) (b : List Nat), b.length ≤ fuel →
      (drainBufferAux cs fuel b).2.length < cs := by
  intro fuel
  induction fuel with
  | zero =>
    intro b hb
    simp only [drainBufferAux]
    omega
  | succ n ih =>
    intro b hb
    by_cases h : 0 < cs ∧ cs ≤ b.length
    · simp only [drainBufferAux, if_pos h]
      exact ih (b.drop cs) (by simp only [List.length_drop]; omega)
    · simp only [drainBufferAux, if_neg h]
      omega

lemma drainBuffer_join (cs : Nat) (b : List Nat) :
    (drainBuffer cs b).1.flatten ++ (drainBuffer cs b).2 = b :=
  drainBufferAux_join cs b.length b

lemma drainBuffer_mem (cs : Nat) (b : List Nat) (f : List Nat)
    (hf : f ∈ (drainBuffer cs b).1) : f.length = cs :=
  drainBufferAux_mem cs b.length b f hf

lemma drainBuffer_rest (cs : Nat) (hcs : 0 < cs) (b : List Nat) :
    (drainBuffer cs b).2.length < cs :=
  drainBufferAux_rest cs hcs b.length b le_rfl

/-- Invariant of the Cartesia receive loop: the frames yielded so far,
concatenated with the live buffer, are exactly the initial content plus
the audio consumed from the trace; every yielded frame is a full non-last
frame; and a short buffer stays short. -/
lemma processEvents_spec (cs : Nat) (hcs : 0 < cs) :
    ∀ (events : List CartesiaEvent) (st : GenState),
      ((processEvents cs st events).frames.map ChunkResult.chunk).flatten
          ++ (processEvents cs st events).buffer
        = (st.frames.map ChunkResult.chunk).flatten ++ st.buffer ++ processedAudio events
      ∧ (∀ f ∈ (processEvents cs st events).frames,
          f ∈ st.frames ∨ (f.chunk.length = cs ∧ f.is_last_chunk = false))
      ∧ (st.buffer.length < cs → (processEvents cs st events).buffer.length < cs) := by
  intro events
  induction events with
  | nil =>
    intro st
    exact ⟨by simp [processEvents, processedAudio], fun f hf => Or.inl hf, fun h => h⟩
  | cons e rest ih =>
    intro st
    cases e with
    | chunk a =>
      by_cases ha : a = []
      · subst ha
        simpa [processEvents, processedAudio] using ih st
      · have hdj := drainBuffer_join cs (st.buffer ++ a)
        have hdr := drainBuffer_rest cs hcs (st.buffer ++ a)
        set r := drainBuffer cs (st.buffer ++ a) with hr
        set st' : GenState :=
          { st with
            frames := st.frames ++ r.1.map (fun c => ⟨c, false⟩),
            buffer := r.2 } with hst'
        have hrun : processEvents cs st (.chunk a :: rest) = processEvents cs st' rest := by
          simp only [processEvents, if_neg ha]
        obtain ⟨h1, h2, h3⟩ := ih st'
        refine ⟨?_, ?_, ?_⟩
        · rw [hrun, h1]
          have hmapmap :
              (r.1.map (fun c => (⟨c, false⟩ : ChunkResult))).map ChunkResult.chunk = r.1 := by
            rw [List.map_map]; exact List.map_id r.1
          show (st'.frames.map ChunkResult.chunk).flatten ++ st'.buffer ++ processedAudio rest
            = (st.frames.map ChunkResult.chunk).flatten ++ st.buffer ++ processedAudio (.chunk a :: rest)
          simp only [hst', List.map_append, List.flatten_append, hmapmap, processedAudio]
          rw [List.append_assoc _ r.1.flatten r.2, hdj]
          simp [List.append_assoc]
        · intro f hf
          rw [hrun] at hf
          rcases h2 f hf with hmem | hnew
          · simp only [hst', List.mem_append] at hmem
            rcases hmem with hmem | hmem
            · exact Or.inl hmem
            · right
              rcases List.mem_map.mp hmem with ⟨c, hc, rfl⟩
              exact ⟨drainBuffer_mem cs (st.buffer ++ a) c hc, rfl⟩
          · exact Or.inr hnew
        · intro _
          rw [hrun]
          exact h3 hdr
    | timestamps wt =>
      cases wt with
      | none => simpa [processEvents, processedAudio] using ih st
      | some w =>
        obtain ⟨ws, ss, es⟩ := w
        by_cases hws : ws = []
        · simpa [processEvents, processedAudio, hws] using ih st
        · have hrun : processEvents cs st (.timestamps (some (ws, ss, es)) :: rest)
              = processEvents cs { st with tstamps := st.tstamps ++ ws.zip (ss.zip es) } rest := by
            simp only [processEvents, if_neg hws]
          obtain ⟨h1, h2, h3⟩ := ih { st with tstamps := st.tstamps ++ ws.zip (ss.zip es) }
          exact ⟨by rw [hrun, h1]; simp [processedAudio],
            fun f hf => h2 f (hrun ▸ hf), fun h => hrun ▸ h3 h⟩
    | error m => simpa [processEvents, processedAudio] using ih st
    | done => exact ⟨by simp [processEvents, processedAudio], fun f hf => Or.inl hf, fun h => h⟩
    | raiseExc m => exact ⟨by simp [processEvents, processedAudio], fun f hf => Or.inl hf, fun h => h⟩

lemma cartesiaFlush_isLast (enc : AudioEncoding) (cs : Nat) (b : List Nat) :
    (cartesiaFlush enc cs b).is_last_chunk = true := by
  simp only [cartesiaFlush]
  split_ifs <;> rfl

lemma cartesiaFlush_pad (enc : AudioEncoding) (cs : Nat) (buffer : List Nat)
    (hb : buffer ≠ []) (hlen : buffer.length < cs) :
    cartesiaFlush enc cs buffer
      = ⟨buffer ++ List.replicate (cs - buffer.length) (silenceByte enc), true⟩ := by
  cases enc <;> simp [cartesiaFlush, outputEncoding, silenceByte, hb, hlen]

/-- Overall shape of the Cartesia generator output on a live context:
exactly one trailing last frame, all earlier frames full-size and
non-last, the last frame either padded to full size or empty, and the
concatenation equal to the consumed provider audio plus under one frame
of silence padding. -/
lemma cartesiaChunkGenerator_spec (enc : AudioEncoding) (cs : Nat) (hcs : 0 < cs)
    (events : List CartesiaEvent) :
    ∃ fs last,
      cartesiaChunkGenerator enc cs false events = fs ++ [last] ∧
      last.is_last_chunk = true ∧
      (∀ f ∈ fs, f.is_last_chunk = false ∧ f.chunk.length = cs) ∧
      (last.chunk.length = cs ∨ last.chunk = []) ∧
      ∃ n, n < cs ∧
        ((fs ++ [last]).map ChunkResult.chunk).flatten
          = processedAudio events ++ List.replicate n (silenceByte enc) := by
  obtain ⟨h1, h2, h3⟩ := processEvents_spec cs hcs events ⟨[], [], []⟩
  set st := processEvents cs ⟨[], [], []⟩ events with hst
  simp only [List.map_nil, List.flatten_nil, List.nil_append] at h1
  have hbuf : st.buffer.length < cs := h3 (by simpa using hcs)
  have hframes : ∀ f ∈ st.frames, f.chunk.length = cs ∧ f.is_last_chunk = false := by
    intro f hf
    rcases h2 f hf with h | h
    · simp at h
    · exact h
  have hgen : cartesiaChunkGenerator enc cs false events
      = st.frames ++ [cartesiaFlush enc cs st.buffer] := rfl
  refine ⟨st.frames, cartesiaFlush enc cs st.buffer, hgen,
    cartesiaFlush_isLast enc cs st.buffer,
    fun f hf => ⟨(hframes f hf).2, (hframes f hf).1⟩, ?_, ?_⟩
  · by_cases hb : st.buffer = []
    · right; simp [cartesiaFlush, hb]
    · left
      rw [cartesiaFlush_pad enc cs _ hb hbuf]
      simp only [List.length_append, List.length_replicate]
      omega
  · by_cases hb : st.buffer = []
    · refine ⟨0, hcs, ?_⟩
      rw [hb] at h1
      simp [cartesiaFlush, hb, ← h1]
    · have hpos : 0 < st.buffer.length := List.length_pos.mpr hb
      refine ⟨cs - st.buffer.length, by omega, ?_⟩
      rw [cartesiaFlush_pad enc cs _ hb hbuf]
      simp only [List.map_append, List.flatten_append, List.map_cons, List.map_nil,
        List.flatten_cons, List.flatten_nil, List.append_nil]
      rw [← List.append_assoc, h1]

lemma sarvamSliceAux_nil (scs : Nat) (fuel : Nat) : sarvamSliceAux scs fuel [] = [] := by
  cases fuel <;> simp [sarvamSliceAux]

lemma sarvamSliceAux_flatten (scs : Nat) (hscs : 0 < scs) :
    ∀ (fuel : Nat) (b : List Nat), b.length ≤ fuel →
      ((sarvamSliceAux scs fuel b).map ChunkResult.chunk).flatten = b := by
  intro fuel
  induction fuel with
  | zero =>
    intro b hb
    have : b = [] := List.length_eq_zero.mp (Nat.le_zero.mp hb)
    simp [this, sarvamSliceAux]
  | succ n ih =>
    intro b hb
    by_cases hb0 : 0 < b.length
    · simp only [sarvamSliceAux, if_pos (And.intro hscs hb0), List.map_cons, List.flatten_cons]
      rw [ih (b.drop scs) (by simp only [List.length_drop]; omega)]
      exact List.take_append_drop scs b
    · have : b = [] := List.length_eq_zero.mp (by omega)
      simp [this, sarvamSliceAux]

lemma sarvamSliceAux_shape (scs : Nat) (hscs : 0 < scs) :
    ∀ (fuel : Nat) (b : List Nat), b.length ≤ fuel → 0 < b.length →
      ∃ fs last, sarvamSliceAux scs fuel b = fs ++ [last] ∧
        last.is_last_chunk = true ∧ 0 < last.chunk.length ∧ last.chunk.length ≤ scs ∧
        (∀ f ∈ fs, f.is_last_chunk = false ∧ f.chunk.length = scs) := by
  intro fuel
  induction fuel with
  | zero => intro b hb hb0; omega
  | succ n ih =>
    intro b hb hb0
    simp only [sarvamSliceAux, if_pos (And.intro hscs hb0)]
    by_cases hle : b.length ≤ scs
    · have hdrop : b.drop scs = [] :=
        List.length_eq_zero.mp (by simp only [List.length_drop]; omega)
      rw [hdrop, sarvamSliceAux_nil]
      refine ⟨[], ⟨b.take scs, decide (b.length ≤ scs)⟩, by simp, ?_, ?_, ?_, by simp⟩
      · simp [hle]
      · simp only [List.length_take]; omega
      · simp only [List.length_take]; omega
    · obtain ⟨fs, last, heq, hl1, hl2, hl3, hfs⟩ :=
        ih (b.drop scs) (by simp only [List.length_drop]; omega)
          (by simp only [List.length_drop]; omega)
      refine ⟨⟨b.take scs, decide (b.length ≤ scs)⟩ :: fs, last, by rw [heq]; rfl,
        hl1, hl2, hl3, ?_⟩
      intro f hf
      rcases List.mem_cons.mp hf with rfl | hf
      · constructor
        · simp [hle]
        · simp only [List.length_take]; omega
      · exact hfs f hf

/-- C1 (amended).  Cartesia's chunk_generator on a live context emits,
for any provider event trace, a run of exactly chunk-size non-last frames
followed by one last frame that is either padded to the chunk size with
the encoding's silence value or empty, and the concatenation of all
frames equals the received bytes followed by the (under one frame of)
silence padding.  Sarvam's chunk_generator instead slices the decoded
audio into frames of min(chunk_size, 4096) bytes whose concatenation is
exactly the received bytes, with an unpadded final partial frame marked
last.  (The original claim — final frame always padded to the configured
size — fails on both counts, see the counterexample.) -/
theorem claim_C1_buffering :
    (∀ (enc : AudioEncoding) (cs : Nat) (events : List CartesiaEvent), 0 < cs →
      ∃ fs last,
        cartesiaChunkGenerator enc cs false events = fs ++ [last] ∧
        last.is_last_chunk = true ∧
        (∀ f ∈ fs, f.is_last_chunk = false ∧ f.chunk.length = cs) ∧
        (last.chunk.length = cs ∨ last.chunk = []) ∧
        ∃ n, n < cs ∧
          ((fs ++ [last]).map ChunkResult.chunk).flatten
            = processedAudio events ++ List.replicate n (silenceByte enc)) ∧
    (∀ (text : String) (cs : Nat) (bytes : List Nat),
      isSilenceToken text = false → 0 < cs →
      ((sarvamChunkGenerator text cs (.ok bytes)).map ChunkResult.chunk).flatten = bytes ∧
      (bytes ≠ [] →
        ∃ fs last, sarvamChunkGenerator text cs (.ok bytes) = fs ++ [last] ∧
          last.is_last_chunk = true ∧ 0 < last.chunk.length ∧
          last.chunk.length ≤ min cs 4096 ∧
          (∀ f ∈ fs, f.is_last_chunk = false ∧ f.chunk.length = min cs 4096))) := by
  constructor
  · intro enc cs events hcs
    exact cartesiaChunkGenerator_spec enc cs hcs events
  · intro text cs bytes hsil hcs
    have hgen : sarvamChunkGenerator text cs (.ok bytes)
        = sarvamSliceLoop (min cs 4096) bytes := by
      simp [sarvamChunkGenerator, hsil]
    have hscs : 0 < min cs 4096 := by omega
    constructor
    · rw [hgen]
      exact sarvamSliceAux_flatten (min cs 4096) hscs bytes.length bytes le_rfl
    · intro hbne
      rw [hgen]
      exact sarvamSliceAux_shape (min cs 4096) hscs bytes.length bytes le_rfl
        (List.length_pos.mpr hbne)

/-- C1 counterexample.  The Sarvam generator, fed 5 decoded bytes with a
configured chunk size of 4 on a non-silence message, emits a final frame
of 1 byte with no silence padding — the claim requires every final
flushed frame to be padded to the configured size. -/
theorem claim_C1_counterexample :
    sarvamChunkGenerator "hello" 4 (.ok [1, 2, 3, 4, 5]) =
      [⟨[1, 2, 3, 4], false⟩, ⟨[5], true⟩] ∧
    (sarvamChunkGenerator "hello" 4 (.ok [1, 2, 3, 4, 5])).getLast!.chunk.length ≠ 4 := by
  decide

/-- Witness for claim_C1_buffering at concrete inputs. -/
theorem claim_C1_buffering_witness :
    (0 : Nat) < 4 ∧ isSilenceToken "hi" = false ∧
    ((sarvamChunkGenerator "hi" 4 (.ok [9, 9, 9, 9, 9])).map ChunkResult.chunk).flatten
      = [9, 9, 9, 9, 9] ∧
    (∃ fs last,
      cartesiaChunkGenerator .mulaw 4 false [.chunk [1, 2, 3]] = fs ++ [last] ∧
      last.is_last_chunk = true ∧
      (∀ f ∈ fs, f.is_last_chunk = false ∧ f.chunk.length = 4) ∧
      (last.chunk.length = 4 ∨ last.chunk = []) ∧
      ∃ n, n < 4 ∧
        ((fs ++ [last]).map ChunkResult.chunk).flatten
          = processedAudio [.chunk [1, 2, 3]] ++ List.replicate n (silenceByte .mulaw)) :=
  ⟨by decide, by decide,
    (claim_C1_buffering.2 "hi" 4 [9, 9, 9, 9, 9] (by decide) (by decide)).1,
    claim_C1_buffering.1 .mulaw 4 [.chunk [1, 2, 3]] (by decide)⟩

/-- C5 (confirmed).  A failure during synthesis closes the frame sequence
cleanly.  Cartesia: an exception raised anywhere in the receive loop is
absorbed and the buffered bytes are still flushed as a final frame marked
is_last_chunk, with the emitted bytes reproducing everything received
before the failure (plus silence padding).  Sarvam: a network exception
or HTTP error yields an empty, cleanly terminated frame sequence (no
bytes are ever held in a buffer across a Sarvam failure).  Both embeddings
are total functions: no exception escapes to the consumer. -/
theorem claim_C5_failure_flush :
    (∀ (enc : AudioEncoding) (cs : Nat) (events : List CartesiaEvent) (msg : String),
      0 < cs →
      ∃ fs last,
        cartesiaChunkGenerator enc cs false (events ++ [.raiseExc msg]) = fs ++ [last] ∧
        last.is_last_chunk = true ∧
        (∀ f ∈ fs, f.is_last_chunk = false) ∧
        ∃ n, n < cs ∧
          ((fs ++ [last]).map ChunkResult.chunk).flatten
            = processedAudio (events ++ [.raiseExc msg])
                ++ List.replicate n (silenceByte enc)) ∧
    (∀ (text : String) (cs : Nat) (msg : String),
      sarvamChunkGenerator text cs (.exc msg) = []) ∧
    (∀ (text : String) (cs : Nat) (status : Nat) (body : String),
      sarvamChunkGenerator text cs (.httpError status body) = []) := by
  refine ⟨?_, ?_, ?_⟩
  · intro enc cs events msg hcs
    obtain ⟨fs, last, heq, hl, hfs, _, hpad⟩ :=
      cartesiaChunkGenerator_spec enc cs hcs (events ++ [.raiseExc msg])
    exact ⟨fs, last, heq, hl, fun f hf => (hfs f hf).1, hpad⟩
  · intro text cs msg
    unfold sarvamChunkGenerator
    split <;> rfl
  · intro text cs status body
    unfold sarvamChunkGenerator
    split <;> rfl

/-- Witness for claim_C5_failure_flush at concrete inputs. -/
theorem claim_C5_failure_flush_witness :
    (0 : Nat) < 2 ∧
    (∃ fs last,
      cartesiaChunkGenerator .linear16 2 false ([.chunk [5]] ++ [.raiseExc "boom"])
        = fs ++ [last] ∧
      last.is_last_chunk = true ∧
      (∀ f ∈ fs, f.is_last_chunk = false) ∧
      ∃ n, n < 2 ∧
        ((fs ++ [last]).map ChunkResult.chunk).flatten
          = processedAudio ([.chunk [5]] ++ [.raiseExc "boom"])
              ++ List.replicate n (silenceByte .linear16)) :=
  ⟨by decide, claim_C5_failure_flush.1 .linear16 2 [.chunk [5]] "boom" (by decide)⟩

/-- Observable control state of CartesiaSynthesizer across
create_speech_uncached calls: the current context (identified by a fresh
number per `self.ws.context()` call, with `_completed` tracked as
ctxDone), the accumulated ctx_message text, the pending delayed
no_more_inputs task (identified by a fresh number per created task),
the tasks cancelled so far, the contexts on which no_more_inputs was sent
synchronously, and every ctx.send performed
(context id, transcript, continue_ flag). -/
structure CartesiaState where
  ctxId : Option Nat
  ctxDone : Bool
  nextCtxId : Nat
  ctxMessage : String
  pendingTimer : Option Nat
  nextTimerId : Nat
  cancelledTimers : List Nat
  noMoreSent : List Nat
  sends : List (Nat × String × Bool)
deriving Repr

/-- Fresh synthesizer: no websocket context yet, empty ctx_message, no
pending task (CartesiaSynthesizer constructor). -/
def initCartesiaState : CartesiaState :=
  ⟨none, false, 0, "", none, 0, [], [], []⟩

/-- The transcript actually sent: create_speech_uncached appends a
trailing space unless the text already ends with one
(`if not message.text.endswith(" ")`). -/
def cartesiaTranscript (text : String) : String :=
  if text.data.getLast? = some ' ' then text else text ++ " "

/-- CartesiaSynthesizer.initialize_ctx (the websocket is assumed
connected, as initialize_ws runs first): a missing or completed context
is replaced by a fresh one with reset ctx_message; otherwise, on a first
text chunk, the pending close task is cancelled, no_more_inputs is sent
on the old context and a fresh context is opened; otherwise nothing
changes. -/
def initCtxStep (s : CartesiaState) (is_first : Bool) : CartesiaState :=
  if s.ctxId = none ∨ s.ctxDone then
    { s with
      ctxMessage := "",
      ctxId := some s.nextCtxId,
      nextCtxId := s.nextCtxId + 1,
      ctxDone := false }
  else if is_first then
    let s1 :=
      match s.pendingTimer with
      | some t => { s with cancelledTimers := t :: s.cancelledTimers }
      | none => s
    { s1 with
      ctxMessage := "",
      noMoreSent := s1.ctxId.getD 0 :: s1.noMoreSent,
      ctxId := some s1.nextCtxId,
      nextCtxId := s1.nextCtxId + 1 }
  else s

/-- CartesiaSynthesizer.refresh_no_more_inputs_task: cancel any pending
delayed no_more_inputs task and arm a fresh one. -/
def refreshStep (s : CartesiaState) : CartesiaState :=
  let s1 :=
    match s.pendingTimer with
    | some t => { s with cancelledTimers := t :: s.cancelledTimers }
    | none => s
  { s1 with
    pendingTimer := some s1.nextTimerId,
    nextTimerId := s1.nextTimerId + 1 }

/-- CartesiaSynthesizer.create_speech_uncached as a state transition:
initialize_ctx, then (since the context exists) ctx.send with
`continue_=not is_sole_text_chunk`, then refresh_no_more_inputs_task when
not sole, and finally `self.ctx_message.text += transcript`.  Note there
is no silence-token check anywhere on this path. -/
def createSpeechStep (s : CartesiaState) (text : String)
    (is_first is_sole : Bool) : CartesiaState :=
  let s1 := initCtxStep s is_first
  let tr := cartesiaTranscript text
  let s2 :=
    match s1.ctxId with
    | some c =>
      let sa := { s1 with sends := s1.sends ++ [(c, tr, !is_sole)] }
      if is_sole then sa else refreshStep sa
    | none => s1
  { s2 with ctxMessage := s2.ctxMessage ++ tr }

example : (createSpeechStep initCartesiaState "a" true false).pendingTimer = some 0 := by
  decide

example : (createSpeechStep initCartesiaState "a" true false).sends
    = [(0, "a ", true)] := by decide

lemma string_empty_append (s : String) : "" ++ s = s := by
  cases s
  rfl

/-- C4 (amended).  The Sarvam synthesizer short-circuits silence-marker
payloads (text whose stripped, lowercased form is empty, silence in angle
brackets, or silence in square brackets): it yields an empty frame
sequence and issues no HTTP request.  The Cartesia synthesizer performs
no such check: create_speech_uncached sends exactly one ctx.send to the
provider for every message, silence markers included.  (The original
claim — both wire strategies short-circuit — fails for Cartesia, see the
counterexample.) -/
theorem claim_C4_silence :
    (∀ (text : String) (cs : Nat) (resp : SarvamHttpResult),
      isSilenceToken text = true →
      sarvamChunkGenerator text cs resp = [] ∧ sarvamRequests text = []) ∧
    (∀ (text : String) (f1 s1 : Bool),
      (createSpeechStep initCartesiaState text f1 s1).sends.length = 1) := by
  constructor
  · intro text cs resp hsil
    exact ⟨by simp [sarvamChunkGenerator, hsil], by simp [sarvamRequests, hsil]⟩
  · intro text f1 s1
    cases s1 <;> rfl

/-- C4 counterexample.  The reserved silence sentinel sent to the
Cartesia synthesizer still produces a provider request: the claim
requires both wire strategies to return without sending any request. -/
theorem claim_C4_counterexample :
    isSilenceToken "<silence>" = true ∧
    (createSpeechStep initCartesiaState "<silence>" true true).sends ≠ [] := by
  decide

/-- Witness for claim_C4_silence at a concrete silence marker. -/
theorem claim_C4_silence_witness :
    isSilenceToken " [Silence] " = true ∧
    (sarvamChunkGenerator " [Silence] " 4 (.ok [1, 2]) = [] ∧
      sarvamRequests " [Silence] " = []) :=
  ⟨by decide, claim_C4_silence.1 " [Silence] " 4 (.ok [1, 2]) (by decide)⟩

/-- C9 (amended).  Starting a turn with a non-sole fragment and following
it, before the pending close fires and while the context is live, with a
second non-sole fragment (is_first_text_chunk=false,
is_sole_text_chunk=false): the second call appends to the same context
(no new context is created), the pending delayed no_more_inputs task from
the first call is cancelled, no no_more_inputs is sent between the two
fragments, and the ctx_message that truncate_at operates on is the single
combined text of both transcripts.  (The original claim, which lets the
second fragment carry is_sole_text_chunk=true, fails: in that case the
pending close is not cancelled — see the counterexample.) -/
theorem claim_C9_grace_append (t1 t2 : String) (f1 : Bool) :
    (createSpeechStep (createSpeechStep initCartesiaState t1 f1 false) t2 false false).ctxId
        = (createSpeechStep initCartesiaState t1 f1 false).ctxId ∧
    (createSpeechStep (createSpeechStep initCartesiaState t1 f1 false) t2 false false).nextCtxId
        = (createSpeechStep initCartesiaState t1 f1 false).nextCtxId ∧
    (∃ t, (createSpeechStep initCartesiaState t1 f1 false).pendingTimer = some t ∧
      t ∈ (createSpeechStep (createSpeechStep initCartesiaState t1 f1 false) t2 false
            false).cancelledTimers) ∧
    (createSpeechStep (createSpeechStep initCartesiaState t1 f1 false) t2 false
        false).noMoreSent = [] ∧
    (createSpeechStep (createSpeechStep initCartesiaState t1 f1 false) t2 false
        false).ctxMessage = cartesiaTranscript t1 ++ cartesiaTranscript t2 := by
  refine ⟨rfl, rfl, ⟨0, rfl, ?_⟩, rfl, ?_⟩
  · show (0 : Nat) ∈ [0]
    simp
  · show "" ++ cartesiaTranscript t1 ++ cartesiaTranscript t2
      = cartesiaTranscript t1 ++ cartesiaTranscript t2
    rw [string_empty_append]

/-- C9 counterexample.  A second fragment with is_first_text_chunk=false
but is_sole_text_chunk=true neither cancels the pending close task nor
arms a new one: the task armed by the first call (id 0) stays pending and
uncancelled, contradicting the claim that any second fragment within the
grace delay cancels the pending close. -/
theorem claim_C9_counterexample :
    (createSpeechStep initCartesiaState "a" true false).pendingTimer = some 0 ∧
    (createSpeechStep (createSpeechStep initCartesiaState "a" true false) "b" false
        true).cancelledTimers = [] ∧
    (createSpeechStep (createSpeechStep initCartesiaState "a" true false) "b" false
        true).pendingTimer = some 0 := by
  decide

/-- Modelled from the spec: BaseSynthesizer.get_message_cutoff_from_voice_speed
lives in base_synthesizer.py, which is not part of the repository
snapshot (only its callers are).  Per the spec, truncate_at without
provider timing "returns the prefix of the requested text that would have
been spoken by the given elapsed time ... otherwise a words-per-minute
estimate".  Texts are modelled at word granularity: the number of whole
words spoken after `seconds` at `words_per_minute` is
max(0, floor(seconds * words_per_minute / 60)). -/
def get_message_cutoff_from_voice_speed (words : List String) (seconds : ℚ)
    (words_per_minute : ℚ) : List String :=
  words.take (Int.toNat (max 0 ⌊seconds * words_per_minute / 60⌋))

/-- The index scan of get_message_cutoff_ctx
(cartesia_synthesizer.create_speech_uncached): walk the accumulated word
timestamps, remembering the current index, and stop at the first entry
whose end time is at least `seconds`; with no early stop the last index
remains; with no timestamps at all the initial 0 remains. -/
def closestIndexGo (seconds : ℚ) : Nat → List (String × ℚ × ℚ) → Nat
  | _, [] => 0
  | i, w :: rest =>
    if seconds ≤ w.2.2 then i
    else
      match rest with
      | [] => i
      | _ :: _ => closestIndexGo seconds (i + 1) rest

/-- closest_index as computed by the loop in get_message_cutoff_ctx. -/
def closestIndex (seconds : ℚ) (ts : List (String × ℚ × ℚ)) : Nat :=
  closestIndexGo seconds 0 ts

/-- End time of the i-th accumulated word timestamp
(`self.ctx_timestamps[closest_index][2]`). -/
def tsEnd (ts : List (String × ℚ × ℚ)) (i : Nat) : ℚ :=
  (ts.getD i ("", 0, 0)).2.2

/-- get_message_cutoff_ctx of cartesia_synthesizer.create_speech_uncached:
for truthy (nonzero) seconds, if the scan stopped at a nonzero index and
that entry's end time is within 2 seconds of the requested time, return
the timestamp words up to and including that index; in every other case
fall back to the words-per-minute estimate (default 150 wpm). -/
def get_message_cutoff_ctx (ts : List (String × ℚ × ℚ)) (msgWords : List String)
    (seconds : ℚ) : List String :=
  if seconds ≠ 0 then
    let ci := closestIndex seconds ts
    if ci ≠ 0 then
      if tsEnd ts ci - seconds < 2 then (ts.take (ci + 1)).map (fun w => w.1)
      else get_message_cutoff_from_voice_speed msgWords seconds 150
    else get_message_cutoff_from_voice_speed msgWords seconds 150
  else get_message_cutoff_from_voice_speed msgWords seconds 150

/-- The Sarvam synthesizer's truncate function
(`get_message_up_to=lambda seconds: message.text` in
sarvam_synthesizer.create_speech): the full message text, for every
elapsed time. -/
def sarvam_get_message_up_to (msgWords : List String) (_seconds : ℚ) : List String :=
  msgWords

example : get_message_cutoff_ctx [] ["a", "b", "c"] 1 = ["a", "b"] := by
  norm_num [get_message_cutoff_ctx, closestIndex, closestIndexGo, tsEnd,
    get_message_cutoff_from_voice_speed]
  decide

example :
    get_message_cutoff_ctx [("a", 0, 10), ("b", 10, 20)] ["w1", "w2", "w3"] 19
      = ["a", "b"] := by
  norm_num [get_message_cutoff_ctx, closestIndex, closestIndexGo, tsEnd,
    get_message_cutoff_from_voice_speed]

lemma take_pfx_take {α : Type} (l : List α) {m n : Nat} (h : m ≤ n) :
    l.take m <+: l.take n := by
  have h1 : (l.take n).take m = l.take m := by
    rw [List.take_take, Nat.min_eq_left h]
  exact ⟨(l.take n).drop m, by rw [← h1, List.take_append_drop]⟩

lemma cutoff_count_mono {s1 s2 : ℚ} (h : s1 ≤ s2) :
    Int.toNat (max 0 ⌊s1 * 150 / 60⌋) ≤ Int.toNat (max 0 ⌊s2 * 150 / 60⌋) := by
  have hq : s1 * 150 / 60 ≤ s2 * 150 / 60 := by
    have := mul_le_mul_of_nonneg_right h (by norm_num : (0 : ℚ) ≤ 150)
    exact (div_le_div_iff_of_pos_right (by norm_num : (0 : ℚ) < 60)).mpr this
  exact Int.toNat_le_toNat (max_le_max le_rfl (Int.floor_mono hq))

lemma cutoff_count_zero {s : ℚ} (h : s ≤ 0) :
    Int.toNat (max 0 ⌊s * 150 / 60⌋) = 0 := by
  have h1 : s * 150 / 60 ≤ 0 := by
    rw [div_nonpos_iff]
    exact Or.inr ⟨by nlinarith, by norm_num⟩
  have h2 : ⌊s * 150 / 60⌋ ≤ 0 := by
    calc ⌊s * 150 / 60⌋ ≤ ⌊(0 : ℚ)⌋ := Int.floor_mono h1
    _ = 0 := Int.floor_zero
  rw [max_eq_left h2]
  rfl

/-- With no accumulated word timestamps, get_message_cutoff_ctx always
takes the words-per-minute fallback. -/
lemma cutoff_ctx_nil (words : List String) (s : ℚ) :
    get_message_cutoff_ctx [] words s
      = get_message_cutoff_from_voice_speed words s 150 := by
  simp [get_message_cutoff_ctx, closestIndex, closestIndexGo]

/-- C3 (amended).  Sarvam's truncate_at is the constant function
returning the full message text — monotone, but never empty.  Cartesia's
truncate_at, in the regime where no provider word timestamps have been
accumulated, equals the words-per-minute estimate, which is monotone
non-decreasing in the elapsed time (each result is a word-level prefix of
the later one) and empty for every elapsed time at most 0.  (The original
claim fails twice: Sarvam returns the full text at seconds = 0, and with
word timestamps present Cartesia is not monotone — see the
counterexample.) -/
theorem claim_C3_truncate_monotone :
    (∀ (words : List String) (s : ℚ), sarvam_get_message_up_to words s = words) ∧
    (∀ (words : List String) (s1 s2 : ℚ), s1 ≤ s2 →
      sarvam_get_message_up_to words s1 <+: sarvam_get_message_up_to words s2) ∧
    (∀ (words : List String) (s1 s2 : ℚ), s1 ≤ s2 →
      get_message_cutoff_ctx [] words s1 <+: get_message_cutoff_ctx [] words s2) ∧
    (∀ (words : List String) (s : ℚ), s ≤ 0 →
      get_message_cutoff_ctx [] words s = []) := by
  refine ⟨fun words s => rfl, fun words s1 s2 _ => ⟨[], List.append_nil _⟩, ?_, ?_⟩
  · intro words s1 s2 h
    rw [cutoff_ctx_nil, cutoff_ctx_nil]
    unfold get_message_cutoff_from_voice_speed
    exact take_pfx_take words (cutoff_count_mono h)
  · intro words s h
    rw [cutoff_ctx_nil]
    unfold get_message_cutoff_from_voice_speed
    rw [cutoff_count_zero h]
    rfl

/-- C3 counterexample.  Sarvam's truncate_at at elapsed time 0 returns
the whole text instead of the empty string; and Cartesia's truncate_at
with word timestamps is not monotone: at 5 elapsed seconds the 150-wpm
fallback yields 4 words while at 19 seconds the timestamp path yields
only 2, so the earlier cutoff is longer than the later one. -/
theorem claim_C3_counterexample :
    sarvam_get_message_up_to ["hi"] 0 ≠ [] ∧
    (5 : ℚ) ≤ 19 ∧
    (get_message_cutoff_ctx [("a", 0, 10), ("b", 10, 20)]
        ["w1", "w2", "w3", "w4"] 19).length
      < (get_message_cutoff_ctx [("a", 0, 10), ("b", 10, 20)]
          ["w1", "w2", "w3", "w4"] 5).length := by
  refine ⟨by decide, by norm_num, ?_⟩
  norm_num [get_message_cutoff_ctx, closestIndex, closestIndexGo, tsEnd,
    get_message_cutoff_from_voice_speed]

/-- Witness for claim_C3_truncate_monotone at concrete elapsed times. -/
theorem claim_C3_truncate_monotone_witness :
    ((1 : ℚ) ≤ 2 ∧ get_message_cutoff_ctx [] ["a", "b", "c", "d", "e"] 1
        <+: get_message_cutoff_ctx [] ["a", "b", "c", "d", "e"] 2) ∧
    ((-3 : ℚ) ≤ 0 ∧ get_message_cutoff_ctx [] ["a", "b"] (-3) = []) :=
  ⟨⟨by norm_num, claim_C3_truncate_monotone.2.2.1 ["a", "b", "c", "d", "e"] 1 2 (by norm_num)⟩,
   ⟨by norm_num, claim_C3_truncate_monotone.2.2.2 ["a", "b"] (-3) (by norm_num)⟩⟩

/-- Outcome of one _process_audio attempt inside
SarvamTranscriber._run_loop: a normal return (clean close), an exception,
or a close caused by the provider rate limit (ConnectionClosedError with
code 1003 and a rate-limit reason), which the receive loop turns into
`self._ended = True` before _process_audio returns. -/
inductive AttemptOutcome
  | normalClose
  | errorClose (msg : String)
  | rateLimitClose
deriving DecidableEq, Repr

/-- NUM_RESTARTS in sarvam_transcriber.py. -/
def NUM_RESTARTS : Nat := 3

/-- Whether an attempt outcome sets self._ended (only the rate-limit
close does, via _receive_transcription_loop). -/
def AttemptOutcome.setsEnded : AttemptOutcome → Bool
  | .rateLimitClose => true
  | _ => false

/-- SarvamTranscriber._run_loop
(`while not self._ended and restarts < NUM_RESTARTS`), counting the
connect attempts (_process_audio calls) performed, driven by the list of
outcomes the environment produces for successive attempts.  `restarts`
increments after every attempt, successful or not. -/
def runLoopAttempts (restarts : Nat) (ended : Bool) : List AttemptOutcome → Nat
  | [] => 0
  | o :: rest =>
    if ended = true ∨ NUM_RESTARTS ≤ restarts then 0
    else 1 + runLoopAttempts (restarts + 1) o.setsEnded rest

/-- The run loop as entered at stream start (restarts = 0, not ended). -/
def sarvamRunLoopAttempts (outcomes : List AttemptOutcome) : Nat :=
  runLoopAttempts 0 false outcomes

example : sarvamRunLoopAttempts [.errorClose "x", .normalClose, .errorClose "y",
    .normalClose] = 3 := by decide

example : sarvamRunLoopAttempts [.rateLimitClose, .normalClose, .normalClose] = 1 := by
  decide

lemma runLoopAttempts_ended (outcomes : List AttemptOutcome) (r : Nat) :
    runLoopAttempts r true outcomes = 0 := by
  cases outcomes <;> simp [runLoopAttempts]

lemma runLoopAttempts_le (outcomes : List AttemptOutcome) :
    ∀ (r : Nat) (e : Bool), runLoopAttempts r e outcomes ≤ NUM_RESTARTS - r := by
  induction outcomes with
  | nil => intro r e; simp [runLoopAttempts]
  | cons o rest ih =>
    intro r e
    simp only [runLoopAttempts]
    split_ifs with h
    · exact Nat.zero_le _
    · have hr : r < NUM_RESTARTS := by
        rcases not_or.mp h with ⟨-, h2⟩
        omega
      have := ih (r + 1) o.setsEnded
      omega

lemma runLoopAttempts_rateLimit :
    ∀ (pre : List AttemptOutcome) (r : Nat) (e : Bool) (post : List AttemptOutcome),
      runLoopAttempts r e (pre ++ .rateLimitClose :: post)
        = runLoopAttempts r e (pre ++ [.rateLimitClose]) := by
  intro pre
  induction pre with
  | nil =>
    intro r e post
    simp only [List.nil_append, runLoopAttempts]
    split_ifs with h
    · rfl
    · rw [show AttemptOutcome.rateLimitClose.setsEnded = true from rfl,
        runLoopAttempts_ended]
  | cons o pre ih =>
    intro r e post
    simp only [List.cons_append, runLoopAttempts]
    split_ifs with h
    · rfl
    · exact congrArg (1 + ·) (ih (r + 1) o.setsEnded post)

/-- C6 (confirmed).  For a single stream lifetime the Sarvam transcriber
run loop performs at most NUM_RESTARTS = 3 connect attempts, and a
provider rate-limit close ends the loop immediately: whatever outcomes
would follow the rate-limited attempt, the loop performs exactly the
attempts it would perform with nothing after it. -/
theorem claim_C6_reconnect_bound :
    NUM_RESTARTS = 3 ∧
    (∀ outcomes : List AttemptOutcome, sarvamRunLoopAttempts outcomes ≤ NUM_RESTARTS) ∧
    (∀ (pre post : List AttemptOutcome),
      sarvamRunLoopAttempts (pre ++ .rateLimitClose :: post)
        = sarvamRunLoopAttempts (pre ++ [.rateLimitClose])) :=
  ⟨rfl,
   fun outcomes => le_trans (runLoopAttempts_le outcomes 0 false) (by omega),
   fun pre post => runLoopAttempts_rateLimit pre 0 false post⟩

/-- Endpointing settings are copied verbatim into the fallback config;
their internal structure is irrelevant here, so they are a bare tag. -/
structure EndpointingConfig where
  tag : Nat
deriving DecidableEq, Repr

/-- The fields of SarvamTranscriberConfig read by the factory, the
fallback builder and the transcriber
(vocode.streaming.models.transcriber, as used in this repository). -/
structure SarvamTranscriberConfig where
  sampling_rate : Nat
  audio_encoding : AudioEncoding
  chunk_size : Nat
  endpointing_config : Option EndpointingConfig
  downsampling : Option Nat
  min_interrupt_confidence : Option ℚ
  mute_during_speech : Bool
  language : Option String
  api_key : Option String
  ws_url : Option String
deriving Repr

/-- The fields of DeepgramTranscriberConfig set by
_sarvam_to_deepgram_fallback. -/
structure DeepgramTranscriberConfig where
  sampling_rate : Nat
  audio_encoding : AudioEncoding
  chunk_size : Nat
  endpointing_config : Option EndpointingConfig
  downsampling : Option Nat
  min_interrupt_confidence : Option ℚ
  mute_during_speech : Bool
  language : String
  model : String
deriving Repr

/-- default_factory._sarvam_to_deepgram_fallback: mirror the Sarvam
config field by field onto a Deepgram nova-2 config; the language is the
Sarvam language (defaulting to hi when absent or empty, per the Python
`or`), with any region code after a dash stripped
(`lang.split("-")[0]`). -/
def sarvam_to_deepgram_fallback (cfg : SarvamTranscriberConfig) :
    DeepgramTranscriberConfig :=
  let lang0 :=
    match cfg.language with
    | none => "hi"
    | some l => if l = "" then "hi" else l
  let lang :=
    if lang0.data.contains '-' then String.mk (lang0.data.takeWhile (fun c => c ≠ '-'))
    else lang0
  { sampling_rate := cfg.sampling_rate
    audio_encoding := cfg.audio_encoding
    chunk_size := cfg.chunk_size
    endpointing_config := cfg.endpointing_config
    downsampling := cfg.downsampling
    min_interrupt_confidence := cfg.min_interrupt_confidence
    mute_during_speech := cfg.mute_during_speech
    language := lang
    model := "nova-2" }

example : (sarvam_to_deepgram_fallback
    ⟨8000, .mulaw, 3200, none, none, none, false, some "hi-IN", none, none⟩).language
  = "hi" := by decide

example : (sarvam_to_deepgram_fallback
    ⟨8000, .mulaw, 3200, none, none, none, false, none, none, none⟩).language
  = "hi" := by decide

/-- The transcriber implementation the factory constructs. -/
inductive TranscriberInstance
  | sarvam (cfg : SarvamTranscriberConfig)
  | deepgram (cfg : DeepgramTranscriberConfig)
deriving Repr

/-- One provider selection, recording how many health probes it performed
along with the constructed implementation. -/
structure SelectionTrace where
  probes : Nat
  chosen : TranscriberInstance
deriving Repr

/-- DefaultTranscriberFactory._create_sarvam_or_fallback: every call runs
_check_sarvam_health exactly once (the factory holds no cache of any
kind) and constructs the Sarvam transcriber when the probe verdict is
healthy, otherwise a Deepgram transcriber over the mirrored config. -/
def create_sarvam_or_fallback (cfg : SarvamTranscriberConfig)
    (probeVerdict : Bool) : SelectionTrace :=
  ⟨1, if probeVerdict then .sarvam cfg
      else .deepgram (sarvam_to_deepgram_fallback cfg)⟩

/-- A running example configuration (8 kHz mu-law telephony leg). -/
def exampleSarvamConfig : SarvamTranscriberConfig :=
  ⟨8000, .mulaw, 3200, none, none, none, false, some "hi-IN", none, none⟩

/-- ProviderHealthRecord as the spec defines it (healthy verdict plus
probe timestamp, seconds). -/
structure ProviderHealthRecord where
  healthy : Bool
  checked_at : Nat
deriving DecidableEq, Repr

/-- The five-minute TTL named by the claim. -/
def healthTTLSeconds : Nat := 300

/-- Follows the claim's words, not the code (refinement target for C2):
a selection consults the cached record, probes only when no record exists
or the record is older than the TTL, and caches a fresh verdict with the
probe time; within the TTL the cached verdict is reused with no probe. -/
def claimedCachedSelection (cfg : SarvamTranscriberConfig)
    (cache : Option ProviderHealthRecord) (now : Nat) (probeVerdict : Bool) :
    SelectionTrace × Option ProviderHealthRecord :=
  match cache with
  | some r =>
    if now - r.checked_at < healthTTLSeconds then
      (⟨0, if r.healthy then .sarvam cfg
           else .deepgram (sarvam_to_deepgram_fallback cfg)⟩, some r)
    else
      (⟨1, if probeVerdict then .sarvam cfg
           else .deepgram (sarvam_to_deepgram_fallback cfg)⟩, some ⟨probeVerdict, now⟩)
  | none =>
    (⟨1, if probeVerdict then .sarvam cfg
         else .deepgram (sarvam_to_deepgram_fallback cfg)⟩, some ⟨probeVerdict, now⟩)

/-- C2 (amended).  The factory keeps no health-record cache at all: every
provider selection performs exactly one fresh health probe and uses its
verdict directly to pick the implementation. -/
theorem claim_C2_no_cache (cfg : SarvamTranscriberConfig) (v : Bool) :
    (create_sarvam_or_fallback cfg v).probes = 1 ∧
    (create_sarvam_or_fallback cfg v).chosen
      = (if v then .sarvam cfg else .deepgram (sarvam_to_deepgram_fallback cfg)) :=
  ⟨rfl, rfl⟩

/-- C2 counterexample.  Two consecutive selections at the same instant:
the code performs two probes (one per selection), while the claimed
TTL-cache discipline performs one (the second selection reuses the
verdict cached by the first, which is 0 seconds old).  The claimed
conditional re-probe behavior is absent from the code. -/
theorem claim_C2_counterexample :
    (create_sarvam_or_fallback exampleSarvamConfig true).probes
        + (create_sarvam_or_fallback exampleSarvamConfig true).probes = 2 ∧
    (claimedCachedSelection exampleSarvamConfig none 0 true).1.probes
        + (claimedCachedSelection exampleSarvamConfig
            (claimedCachedSelection exampleSarvamConfig none 0 true).2 0 true).1.probes
      = 1 ∧
    (2 : Nat) ≠ 1 := by
  refine ⟨rfl, rfl, by decide⟩

/-- C7 (confirmed).  A healthy probe verdict selects the Sarvam
implementation over the given config; an unhealthy verdict selects the
Deepgram fallback whose config mirrors the primary one field by field
(sampling rate, audio encoding, chunk size, endpointing, downsampling,
interrupt confidence, mute setting) with only the wire protocol (model
nova-2, dash-stripped language) differing. -/
theorem claim_C7_failover_config (cfg : SarvamTranscriberConfig) :
    (create_sarvam_or_fallback cfg true).chosen = .sarvam cfg ∧
    ∃ dg, (create_sarvam_or_fallback cfg false).chosen = .deepgram dg ∧
      dg.sampling_rate = cfg.sampling_rate ∧
      dg.audio_encoding = cfg.audio_encoding ∧
      dg.chunk_size = cfg.chunk_size ∧
      dg.endpointing_config = cfg.endpointing_config ∧
      dg.downsampling = cfg.downsampling ∧
      dg.min_interrupt_confidence = cfg.min_interrupt_confidence ∧
      dg.mute_during_speech = cfg.mute_during_speech ∧
      dg.model = "nova-2" :=
  ⟨rfl, sarvam_to_deepgram_fallback cfg, rfl, rfl, rfl, rfl, rfl, rfl, rfl, rfl, rfl⟩

/-- Outcome of one health probe as observed by
DefaultTranscriberFactory._check_sarvam_health: the connection attempt
(or anything inside the with-block) raised; the 3-second wait_for timed
out with no message; or a message arrived, carrying its parsed type tag
and optional payload message. -/
inductive ProbeOutcome
  | connectFailure (msg : String)
  | timeoutNoResponse
  | response (eventType : Option String) (message : Option String)
deriving DecidableEq, Repr

/-- _check_sarvam_health classification: any exception is unhealthy, a
timeout with no error is healthy (absence of rejection is acceptance),
and a received message is unhealthy exactly when its type tag is
"error". -/
def check_sarvam_health : ProbeOutcome → Bool
  | .connectFailure _ => false
  | .timeoutNoResponse => true
  | .response t _ => if t = some "error" then false else true

/-- C8 (confirmed).  The probe verdict is: unhealthy on an explicit error
event within the timeout; healthy when the timeout elapses with no
response; healthy on any non-error response; unhealthy when the
connection attempt itself fails with an exception. -/
theorem claim_C8_probe_classification :
    (∀ m, check_sarvam_health (.response (some "error") m) = false) ∧
    check_sarvam_health .timeoutNoResponse = true ∧
    (∀ t m, t ≠ some "error" → check_sarvam_health (.response t m) = true) ∧
    (∀ msg, check_sarvam_health (.connectFailure msg) = false) :=
  ⟨fun _ => rfl, rfl, fun t _ ht => by simp [check_sarvam_health, ht], fun _ => rfl⟩

/-- Witness for claim_C8_probe_classification at a concrete non-error
response. -/
theorem claim_C8_probe_classification_witness :
    (some "transcript" ≠ some "error") ∧
    check_sarvam_health (.response (some "transcript") (some "hello")) = true :=
  ⟨by decide,
   claim_C8_probe_classification.2.2.1 (some "transcript") (some "hello") (by decide)⟩

/-- SarvamTranscriber class constants (sarvam_transcriber.py): the
hardcoded endpoint, model and mode, deliberately overriding any stale
config default. -/
def SARVAM_WS_URL : String := "wss://api.sarvam.ai/speech-to-text-translate/ws"

/-- SarvamTranscriber.SARVAM_MODEL. -/
def SARVAM_MODEL : String := "saaras:v3"

/-- SarvamTranscriber.SARVAM_MODE. -/
def SARVAM_MODE : String := "transcribe"

/-- SarvamTranscriber.get_sarvam_url: the hardcoded base URL with
sample_rate=16000, the transcribe mode, pcm_s16le input codec, the
config language when truthy, and the saaras:v3 model.  The config's
ws_url is never read. -/
def get_sarvam_url (cfg : SarvamTranscriberConfig) : String :=
  let params : List String :=
    ["sample_rate=16000", "mode=" ++ SARVAM_MODE, "input_audio_codec=pcm_s16le"]
      ++ (match cfg.language with
          | some l => if l = "" then [] else ["language-code=" ++ l]
          | none => [])
      ++ ["model=" ++ SARVAM_MODEL]
  SARVAM_WS_URL ++ "?" ++ String.intercalate "&" params

example : get_sarvam_url exampleSarvamConfig
    = "wss://api.sarvam.ai/speech-to-text-translate/ws?sample_rate=16000&mode=transcribe&input_audio_codec=pcm_s16le&language-code=hi-IN&model=saaras:v3" := by
  decide

/-- What the send duty pulls from the input queue on each iteration: an
audio chunk, a 5-second timeout (answered with a 640-byte silence
heartbeat), or the None end-of-stream sentinel. -/
inductive QueueItem
  | audio (bytes : List Nat)
  | timeoutTick
  | endOfStream
deriving Repr

/-- SarvamTranscriber._send_audio_loop over a queue trace, parameterized
by the audioop primitives (external C library): `ulaw2lin` is
audioop.ulaw2lin(chunk, 2) and `ratecv` is
audioop.ratecv(chunk, width, channels, src_rate, dst_rate, state).
Each audio chunk is mu-law-decoded when the configured encoding is
mu-law, then resampled from the configured rate to 16000 Hz with the
resampler state (self._ratecv_state) threaded to the next chunk; the
result is sent as a raw binary frame.  A timeout sends 640 zero bytes; the
None sentinel ends the loop. -/
def send_audio_loop {σ : Type} (ulaw2lin : List Nat → List Nat)
    (ratecv : List Nat → Nat → Nat → Nat → Nat → Option σ → List Nat × Option σ)
    (cfg : SarvamTranscriberConfig) :
    Option σ → List QueueItem → List (List Nat)
  | _, [] => []
  | st, .audio b :: rest =>
    let b1 := if cfg.audio_encoding = AudioEncoding.mulaw then ulaw2lin b else b
    let r := ratecv b1 2 1 cfg.sampling_rate 16000 st
    r.1 :: send_audio_loop ulaw2lin ratecv cfg r.2 rest
  | st, .timeoutTick :: rest =>
    List.replicate 640 0 :: send_audio_loop ulaw2lin ratecv cfg st rest
  | _, .endOfStream :: _ => []

/-- The claim's reading of the send duty (refinement target for C10):
every outgoing chunk is mu-law-decoded when so configured and resampled
from the configured rate to 16 kHz, with the resampler state threaded
across consecutive chunks. -/
def resampleThread {σ : Type} (ulaw2lin : List Nat → List Nat)
    (ratecv : List Nat → Nat → Nat → Nat → Nat → Option σ → List Nat × Option σ)
    (cfg : SarvamTranscriberConfig) :
    Option σ → List (List Nat) → List (List Nat)
  | _, [] => []
  | st, b :: rest =>
    let b1 := if cfg.audio_encoding = AudioEncoding.mulaw then ulaw2lin b else b
    let r := ratecv b1 2 1 cfg.sampling_rate 16000 st
    r.1 :: resampleThread ulaw2lin ratecv cfg r.2 rest

/-- C10 (confirmed).  The Sarvam transcriber connects to the hardcoded
endpoint with sample_rate=16000, mode=transcribe,
input_audio_codec=pcm_s16le and model=saaras:v3 — changing the config's
ws_url never changes the URL — and the send duty processes every audio
chunk by mu-law-decoding it when the configured encoding is mu-law and
resampling it from the configured rate to 16000 Hz, threading the
resampler state across consecutive chunks. -/
theorem claim_C10_transcriber_wire :
    (∀ (cfg : SarvamTranscriberConfig) (u : Option String),
      get_sarvam_url { cfg with ws_url := u } = get_sarvam_url cfg) ∧
    get_sarvam_url exampleSarvamConfig
      = "wss://api.sarvam.ai/speech-to-text-translate/ws?sample_rate=16000&mode=transcribe&input_audio_codec=pcm_s16le&language-code=hi-IN&model=saaras:v3" ∧
    (∀ (σ : Type) (ulaw2lin : List Nat → List Nat)
        (ratecv : List Nat → Nat → Nat → Nat → Nat → Option σ → List Nat × Option σ)
        (cfg : SarvamTranscriberConfig) (st : Option σ) (chunks : List (List Nat)),
      send_audio_loop ulaw2lin ratecv cfg st (chunks.map .audio)
        = resampleThread ulaw2lin ratecv cfg st chunks) := by
  refine ⟨fun cfg u => rfl, by decide, ?_⟩
  intro σ ulaw2lin ratecv cfg st chunks
  induction chunks generalizing st with
  | nil => rfl
  | cons b rest ih =>
    simp only [List.map_cons, send_audio_loop, resampleThread]
    rw [ih]

end Vocode
